import Mathlib

/-!
# anyu_logger: the `loggers` package

A shallow embedding of `src/loggers/logger.go` and a verification of the
properties its specification states.

The package wraps the `go.uber.org/zap` library.  The part of zap that the
package drives (levels, the io core, the JSON encoder, `Logger.WithOptions`,
`Logger.Named`, the level check of a log call) lives outside `src/`; it is
modelled in the first section, each definition saying what it stands for.

Go objects reached through pointers (`*Config`, `*CommonLogger`) live in an
explicit store: a pointer is an index into the store, a dereference of an index
that is not allocated is a nil dereference and makes the operation fail
(`none`).  Every operation of the package passes the store explicitly.
-/

namespace Loggers

/-! ## The zap library, as far as the package uses it -/

/-- Modelled from the spec: `zapcore.Level` is declared in zap, outside `src/`.
It is an `int8`; spec §3 orders the levels debug < info < warn < error. -/
abbrev Level := Int

/-- Modelled from the spec: `zap.DebugLevel`, the lowest severity (zap's value -1). -/
def DebugLevel : Level := -1

/-- Modelled from the spec: `zap.InfoLevel`, zap's zero value of `Level`. -/
def InfoLevel : Level := 0

/-- Modelled from the spec: `zap.WarnLevel`. -/
def WarnLevel : Level := 1

/-- Modelled from the spec: `zap.ErrorLevel`. -/
def ErrorLevel : Level := 2

/-- Modelled from the spec: `zapcore.CapitalLevelEncoder` is declared in zap;
spec §6 says the `level` member is the upper-case level name. -/
def CapitalLevelEncoder (l : Level) : String :=
  if l = -1 then "DEBUG"
  else if l = 0 then "INFO"
  else if l = 1 then "WARN"
  else if l = 2 then "ERROR"
  else if l = 3 then "DPANIC"
  else if l = 4 then "PANIC"
  else if l = 5 then "FATAL"
  else "LEVEL(" ++ toString l ++ ")"

/-- An `io.Writer` value: the identity of an output sink. -/
abbrev Writer := Nat

/-- The standard output stream `os.Stdout` (file descriptor 1). -/
def Stdout : Writer := 1

/-- A `time.Time`, broken down into its civil fields. -/
structure Time where
  year : Nat
  month : Nat
  day : Nat
  hour : Nat
  minute : Nat
  second : Nat

/-- The call site of a log call, as `runtime.Caller` reports it. -/
structure Caller where
  site : String
  function : String

/-- Modelled from the spec: `zapcore.EncoderConfig` is declared in zap; spec §3
describes it as the key names of the time, level, logger-name, caller,
function, message and stack members, the line terminator and the formatting
functions.  Only the members `logger.go` sets are kept. -/
structure EncoderConfig where
  TimeKey : String
  LevelKey : String
  NameKey : String
  CallerKey : String
  FunctionKey : String
  MessageKey : String
  StacktraceKey : String
  LineEnding : String
  EncodeLevel : Level → String
  EncodeTime : Time → String
  EncodeCaller : Caller → String

/-- Modelled from the spec: `zapcore.Entry` is declared in zap; the data of one
log call before it is encoded. -/
structure Entry where
  Level : Level
  Time : Time
  LoggerName : String
  Message : String
  Caller : Option Caller

/-- One encoded record: the members of the JSON object, in order.  String
escaping and the line terminator are not represented. -/
abbrev Record := List (String × String)

/-- Modelled from the spec: the JSON encoder's `EncodeEntry` is zap code; spec
§6 gives the record format: `level`, `time`, `name` (only if a name was
attached), `caller` (only if call-site capture is on), `msg`; a member whose
key is empty is left out. -/
def EncodeEntry (cfg : EncoderConfig) (ent : Entry) : Record :=
  (if cfg.LevelKey ≠ "" then [(cfg.LevelKey, cfg.EncodeLevel ent.Level)] else []) ++
  (if cfg.TimeKey ≠ "" then [(cfg.TimeKey, cfg.EncodeTime ent.Time)] else []) ++
  (if ent.LoggerName ≠ "" ∧ cfg.NameKey ≠ "" then [(cfg.NameKey, ent.LoggerName)] else []) ++
  (match ent.Caller with
   | some c =>
     (if cfg.CallerKey ≠ "" then [(cfg.CallerKey, cfg.EncodeCaller c)] else []) ++
     (if cfg.FunctionKey ≠ "" then [(cfg.FunctionKey, c.function)] else [])
   | none => []) ++
  (if cfg.MessageKey ≠ "" then [(cfg.MessageKey, ent.Message)] else [])

/-- Modelled from the spec: `zapcore.Core` is declared in zap; spec glossary:
the emitter core is the pipeline of encoder, sink adapter and level filter.
`enc` is the layout the JSON encoder was built from. -/
structure Core where
  enc : EncoderConfig
  out : Writer
  enab : Level

/-- Modelled from the spec: `zapcore.NewJSONEncoder` builds the JSON encoder
for a layout; the encoder is identified with the layout it uses. -/
def NewJSONEncoder (cfg : EncoderConfig) : EncoderConfig := cfg

/-- Modelled from the spec: `zapcore.AddSync` wraps a writer into the sink
adapter; the adapter writes to the same sink. -/
def AddSync (w : Writer) : Writer := w

/-- Modelled from the spec: `zapcore.NewCore` assembles the emitter core. -/
def NewCore (enc : EncoderConfig) (ws : Writer) (enab : Level) : Core :=
  { enc := enc, out := ws, enab := enab }

/-- Modelled from the spec: the level filter of a core (spec §4.2): a record is
emitted when its severity is at or above the core's level. -/
def Core.Enabled (c : Core) (lvl : Level) : Bool := decide (c.enab ≤ lvl)

/-- Modelled from the spec: `zap.Logger` is declared in zap.  Kept: the emitter
core, the name tag and the call-site capture switch.  zap never mutates a
`Logger` after it is built (every method works on a copy), so the value stands
for the object. -/
structure ZapLogger where
  core : Core
  name : String
  addCaller : Bool

/-- Modelled from the spec: a `zap.Option`, a behaviour modifier; zap applies
it to the copy that `WithOptions` makes. -/
abbrev ZapOption := ZapLogger → ZapLogger

/-- Modelled from the spec: `zap.New` builds an unnamed logger around a core,
call-site capture off. -/
def New (core : Core) : ZapLogger :=
  { core := core, name := "", addCaller := false }

/-- Modelled from the spec: `zap.WrapCore` replaces the logger's core by the
result of `f` on the current core. -/
def WrapCore (f : Core → Core) : ZapOption :=
  fun log => { log with core := f log.core }

/-- Modelled from the spec: `zap.AddCaller` turns call-site capture on. -/
def AddCaller : ZapOption :=
  fun log => { log with addCaller := true }

/-- Modelled from the spec: `Logger.WithOptions` copies the logger and applies
the options to the copy, in order. -/
def ZapLogger.WithOptions (log : ZapLogger) (opts : List ZapOption) : ZapLogger :=
  opts.foldl (fun c opt => opt c) log

/-- Modelled from zap's documentation of `Logger.Named` (zap code, outside
`src/`): it adds a path segment to the logger's name, segments are joined by
periods, and an empty segment returns the receiver. -/
def ZapLogger.Named (log : ZapLogger) (s : String) : ZapLogger :=
  if s = "" then log
  else if log.name = "" then { log with name := s }
  else { log with name := log.name ++ "." ++ s }

/-- Modelled from the spec: the entry zap builds for a log call: severity, time
and message of the call, the logger's name tag, and the call site when
call-site capture is on (spec §6). -/
def ZapLogger.entry (log : ZapLogger) (lvl : Level) (msg : String) (now : Time)
    (site : Caller) : Entry :=
  { Level := lvl, Time := now, LoggerName := log.name, Message := msg,
    Caller := if log.addCaller then some site else none }

/-- Modelled from the spec: one log call on a `zap.Logger` (spec §4.2, §6):
when the core's level filter lets the severity through, the entry is encoded
with the core's layout and written to the core's sink; the result is that
write, if any.  The panic and exit actions of the levels above error are
outside the model. -/
def ZapLogger.Log (log : ZapLogger) (lvl : Level) (msg : String) (now : Time)
    (site : Caller) : Option (Writer × Record) :=
  if log.core.Enabled lvl then
    some (log.core.out, EncodeEntry log.core.enc (log.entry lvl msg now site))
  else none

/-! ## `logger.go` -/

/-- The table `logLevelMap`, in source order. -/
def logLevelMap : List (String × Level) :=
  [("info", InfoLevel), ("debug", DebugLevel), ("warn", WarnLevel), ("error", ErrorLevel)]

/-- The function `GetLogLevel`: the table entry when there is one, `InfoLevel` otherwise. -/
def GetLogLevel (level : String) : Level :=
  match logLevelMap.lookup level with
  | some logLevel => logLevel
  | none => InfoLevel

/-- Decimal rendering of `n`, zero-padded on the left to `width` digits. -/
def zeroPad (width n : Nat) : String :=
  String.mk (List.replicate (width - (toString n).length) '0') ++ toString n

/-- The function `timeEncoder`: the layout `2006-01-02 15:04:05`. -/
def timeEncoder (t : Time) : String :=
  zeroPad 4 t.year ++ "-" ++ zeroPad 2 t.month ++ "-" ++ zeroPad 2 t.day ++ " " ++
  zeroPad 2 t.hour ++ ":" ++ zeroPad 2 t.minute ++ ":" ++ zeroPad 2 t.second

/-- Modelled from the spec: `zapcore.ShortCallerEncoder` renders the call site
in its short file:line form (spec §6). -/
def ShortCallerEncoder (c : Caller) : String := c.site

/-- The variable `defaultEncodeConfig`. -/
def defaultEncodeConfig : EncoderConfig :=
  { TimeKey := "time"
    LevelKey := "level"
    NameKey := "name"
    CallerKey := "caller"
    FunctionKey := ""
    MessageKey := "msg"
    StacktraceKey := "stacktrace"
    LineEnding := "\n"
    EncodeLevel := CapitalLevelEncoder
    EncodeTime := timeEncoder
    EncodeCaller := ShortCallerEncoder }

/-- The struct `Config`. -/
structure Config where
  LogLevel : String
  Writer : Writer
  EncodeConfig : EncoderConfig

/-- The value `DefaultLoggerConfig` points to. -/
def DefaultLoggerConfig : Config :=
  { LogLevel := "info", Writer := Stdout, EncodeConfig := defaultEncodeConfig }

/-- A pointer: an index into the store. -/
abbrev Ptr := Nat

/-- The struct `CommonLogger`: the embedded zap logger and the pointer to its `Config`. -/
structure CommonLogger where
  Logger : ZapLogger
  config : Ptr

/-- The program state: the `Config` objects, the `CommonLogger` objects and
every write made to a sink so far, oldest first. -/
structure Store where
  configs : List Config
  loggers : List CommonLogger
  sinks : List (Writer × Record)

/-- Allocation of a new `CommonLogger` object; the result is the new store and the pointer. -/
def Store.allocLogger (s : Store) (l : CommonLogger) : Store × Ptr :=
  ({ s with loggers := s.loggers ++ [l] }, s.loggers.length)

/-- The function `NewCommonLogger`. -/
def NewCommonLogger (s : Store) (config : Ptr) : Option (Store × Ptr) :=
  match s.configs[config]? with
  | none => none
  | some cfg =>
    let syncer := AddSync cfg.Writer
    let core := NewCore (NewJSONEncoder cfg.EncodeConfig) syncer (GetLogLevel cfg.LogLevel)
    some (s.allocLogger { Logger := New core, config := config })

/-- The method `clone`: a new object holding a copy of the receiver's two members. -/
def CommonLogger.clone (s : Store) (logger : Ptr) : Option (Store × Ptr) :=
  match s.loggers[logger]? with
  | none => none
  | some c => some (s.allocLogger c)

/-- The assignment `newLogger.Logger = z`. -/
def Store.setLogger (s : Store) (p : Ptr) (z : ZapLogger) : Option Store :=
  match s.loggers[p]? with
  | none => none
  | some l => some { s with loggers := s.loggers.set p { l with Logger := z } }

/-- The read `p.Logger`. -/
def Store.zapOf (s : Store) (p : Ptr) : Option ZapLogger :=
  (s.loggers[p]?).map CommonLogger.Logger

/-- The read `*p.config`. -/
def Store.configOf (s : Store) (p : Ptr) : Option Config :=
  match s.loggers[p]? with
  | none => none
  | some l => s.configs[l.config]?

/-- The method `LogLevel`.  The closure handed to `zap.WrapCore` runs inside
`WithOptions`; it reads `logger.config` there and ignores the core it is given. -/
def CommonLogger.LogLevel (s : Store) (logger : Ptr) (logLevel : String) :
    Option (Store × Ptr) := do
  let (s1, newLogger) ← clone s logger
  let z ← s1.zapOf newLogger
  let cfg ← s1.configOf logger
  let wrapped := z.WithOptions [WrapCore (fun _ =>
    let syncer := AddSync cfg.Writer
    let core := NewCore (NewJSONEncoder cfg.EncodeConfig) syncer (GetLogLevel logLevel)
    core)]
  let s2 ← s1.setLogger newLogger wrapped
  pure (s2, newLogger)

/-- The method `EncodeConfig`. -/
def CommonLogger.EncodeConfig (s : Store) (logger : Ptr) (encodeConfig : EncoderConfig) :
    Option (Store × Ptr) := do
  let (s1, newLogger) ← clone s logger
  let z ← s1.zapOf newLogger
  let cfg ← s1.configOf logger
  let wrapped := z.WithOptions [WrapCore (fun _ =>
    let syncer := AddSync cfg.Writer
    let core := NewCore (NewJSONEncoder encodeConfig) syncer (GetLogLevel cfg.LogLevel)
    core)]
  let s2 ← s1.setLogger newLogger wrapped
  pure (s2, newLogger)

/-- The method `Writer`. -/
def CommonLogger.Writer (s : Store) (logger : Ptr) (writer : Loggers.Writer) :
    Option (Store × Ptr) := do
  let (s1, newLogger) ← clone s logger
  let z ← s1.zapOf newLogger
  let cfg ← s1.configOf logger
  let wrapped := z.WithOptions [WrapCore (fun _ =>
    let syncer := AddSync writer
    let core := NewCore (NewJSONEncoder cfg.EncodeConfig) syncer (GetLogLevel cfg.LogLevel)
    core)]
  let s2 ← s1.setLogger newLogger wrapped
  pure (s2, newLogger)

/-- The method `Options`. -/
def CommonLogger.Options (s : Store) (logger : Ptr) (options : List ZapOption) :
    Option (Store × Ptr) := do
  let (s1, newLogger) ← clone s logger
  let z ← s1.zapOf newLogger
  let s2 ← s1.setLogger newLogger (z.WithOptions options)
  pure (s2, newLogger)

/-- The method `Name`. -/
def CommonLogger.Name (s : Store) (logger : Ptr) (name : String) :
    Option (Store × Ptr) := do
  let (s1, newLogger) ← clone s logger
  let z ← s1.zapOf newLogger
  let s2 ← s1.setLogger newLogger (z.Named name)
  pure (s2, newLogger)

/-- A log call through the embedded zap logger of a `CommonLogger`: the write,
if the level filter lets the record through, is appended to the sinks. -/
def Log (s : Store) (logger : Ptr) (lvl : Level) (msg : String) (now : Time)
    (site : Caller) : Option Store := do
  let z ← s.zapOf logger
  pure { s with sinks := s.sinks ++ (z.Log lvl msg now site).toList }

/-- The records a sink holds, oldest first. -/
def Store.written (s : Store) (w : Writer) : List Record :=
  (s.sinks.filter (fun e => e.1 = w)).map Prod.snd

/-- The five derivation operations with their arguments. -/
inductive Derivation where
  | logLevel (logLevel : String)
  | encodeConfig (encodeConfig : EncoderConfig)
  | writer (writer : Writer)
  | options (options : List ZapOption)
  | name (name : String)

/-- The call of a derivation operation on a receiver. -/
def derive (s : Store) (logger : Ptr) : Derivation → Option (Store × Ptr)
  | .logLevel n => CommonLogger.LogLevel s logger n
  | .encodeConfig e => CommonLogger.EncodeConfig s logger e
  | .writer w => CommonLogger.Writer s logger w
  | .options os => CommonLogger.Options s logger os
  | .name n => CommonLogger.Name s logger n

/-- The derivations that rebuild the emitter core: `LogLevel`, `EncodeConfig`, `Writer`. -/
def Derivation.rebuilds : Derivation → Bool
  | .logLevel _ => true
  | .encodeConfig _ => true
  | .writer _ => true
  | .options _ => false
  | .name _ => false

/-- The zap logger a derivation builds from the receiver's zap logger `z` and
the `Config` `cfg` the receiver points to. -/
def derivedZap (z : ZapLogger) (cfg : Config) : Derivation → ZapLogger
  | .logLevel n =>
    { z with core := NewCore cfg.EncodeConfig cfg.Writer (GetLogLevel n) }
  | .encodeConfig e =>
    { z with core := NewCore e cfg.Writer (GetLogLevel cfg.LogLevel) }
  | .writer w =>
    { z with core := NewCore cfg.EncodeConfig w (GetLogLevel cfg.LogLevel) }
  | .options os => z.WithOptions os
  | .name n => z.Named n

/-- A store holding the default `Config` at pointer 0, no logger yet and empty sinks. -/
def exampleStore : Store :=
  { configs := [DefaultLoggerConfig], loggers := [], sinks := [] }

/-! ## Basic facts about the store operations -/

theorem set_last {α : Type} (xs : List α) (a b : α) :
    (xs ++ [a]).set xs.length b = xs ++ [b] := by
  induction xs with
  | nil => rfl
  | cons x xs ih => simp [List.set, ih]

theorem getElem?_last {α : Type} (xs : List α) (a : α) :
    (xs ++ [a])[xs.length]? = some a := by
  simp

theorem getElem?_old {α : Type} (xs : List α) (a b : α) (i : Nat)
    (h : xs[i]? = some b) : (xs ++ [a])[i]? = some b := by
  have hi : i < xs.length := by
    by_contra hn
    rw [List.getElem?_eq_none (by omega)] at h
    cases h
  rw [List.getElem?_append_left hi, h]

/-- Every derivation succeeds on an allocated receiver whose `Config` is
allocated; it allocates one object, the derived logger, and changes nothing else. -/
theorem derive_eq (s : Store) (logger : Ptr) (l : CommonLogger) (cfg : Config)
    (d : Derivation) (hl : s.loggers[logger]? = some l)
    (hc : s.configs[l.config]? = some cfg) :
    derive s logger d =
      some ({ s with loggers := s.loggers ++
                [{ Logger := derivedZap l.Logger cfg d, config := l.config }] },
            s.loggers.length) := by
  have hold := getElem?_old s.loggers l l logger hl
  cases d <;>
    simp [derive, derivedZap, CommonLogger.LogLevel, CommonLogger.EncodeConfig,
      CommonLogger.Writer, CommonLogger.Options, CommonLogger.Name, CommonLogger.clone,
      Store.allocLogger, Store.zapOf, Store.configOf, Store.setLogger, hl, hc, hold,
      set_last, ZapLogger.WithOptions, WrapCore, NewJSONEncoder, AddSync, bind]

/-- The function `NewCommonLogger` succeeds on an allocated `Config`: it allocates one
logger whose core is built from the three members of that `Config`. -/
theorem NewCommonLogger_eq (s : Store) (config : Ptr) (cfg : Config)
    (h : s.configs[config]? = some cfg) :
    NewCommonLogger s config =
      some ({ s with loggers := s.loggers ++
                [{ Logger := New (NewCore cfg.EncodeConfig cfg.Writer (GetLogLevel cfg.LogLevel)),
                   config := config }] },
            s.loggers.length) := by
  simp [NewCommonLogger, h, Store.allocLogger, NewJSONEncoder, AddSync]

/-- What `NewCommonLogger` leaves behind: the new logger holds a fresh zap logger
around the core built from the `Config` and the pointer it was given; the
`Config` objects and the sinks are untouched. -/
theorem NewCommonLogger_spec (s : Store) (config : Ptr) (cfg : Config)
    (h : s.configs[config]? = some cfg) :
    ∃ s1 L, NewCommonLogger s config = some (s1, L) ∧
      s1.loggers[L]? =
        some { Logger := New (NewCore cfg.EncodeConfig cfg.Writer (GetLogLevel cfg.LogLevel)),
               config := config } ∧
      s1.configs = s.configs ∧ s1.sinks = s.sinks :=
  ⟨_, _, NewCommonLogger_eq s config cfg h, getElem?_last _ _, rfl, rfl⟩

/-- A log call through an allocated logger succeeds and appends what its zap logger writes. -/
theorem Log_eq (s : Store) (logger : Ptr) (l : CommonLogger) (lvl : Level) (msg : String)
    (now : Time) (site : Caller) (hl : s.loggers[logger]? = some l) :
    Log s logger lvl msg now site =
      some { s with sinks := s.sinks ++ (l.Logger.Log lvl msg now site).toList } := by
  simp [Log, Store.zapOf, hl, bind]

theorem ZapLogger.Log_enabled (z : ZapLogger) (lvl : Level) (msg : String) (now : Time)
    (site : Caller) (h : z.core.enab ≤ lvl) :
    z.Log lvl msg now site =
      some (z.core.out, EncodeEntry z.core.enc (z.entry lvl msg now site)) := by
  simp [ZapLogger.Log, Core.Enabled, h]

theorem ZapLogger.Log_disabled (z : ZapLogger) (lvl : Level) (msg : String) (now : Time)
    (site : Caller) (h : ¬ z.core.enab ≤ lvl) :
    z.Log lvl msg now site = none := by
  simp [ZapLogger.Log, Core.Enabled, h]

theorem GetLogLevel_of_unknown (s : String)
    (h : s ∉ ["info", "debug", "warn", "error"]) : GetLogLevel s = InfoLevel := by
  simp only [List.mem_cons, List.mem_singleton, List.mem_nil_iff, or_false, not_or] at h
  obtain ⟨h1, h2, h3, h4⟩ := h
  have e1 : (s == "info") = false := beq_eq_false_iff_ne.mpr h1
  have e2 : (s == "debug") = false := beq_eq_false_iff_ne.mpr h2
  have e3 : (s == "warn") = false := beq_eq_false_iff_ne.mpr h3
  have e4 : (s == "error") = false := beq_eq_false_iff_ne.mpr h4
  simp [GetLogLevel, logLevelMap, List.lookup, e1, e2, e3, e4]

/-- A log call through an allocated logger: it succeeds, touches neither the
loggers nor the `Config` objects, and appends one record to the sink of the
logger's core exactly when the severity is at or above the core's level. -/
theorem Log_sinks (s : Store) (logger : Ptr) (l : CommonLogger) (lvl : Level) (msg : String)
    (now : Time) (site : Caller) (hl : s.loggers[logger]? = some l) :
    ∃ s2, Log s logger lvl msg now site = some s2 ∧ s2.configs = s.configs ∧
      s2.loggers = s.loggers ∧
      s2.sinks = s.sinks ++
        (if l.Logger.core.enab ≤ lvl then
          [(l.Logger.core.out,
            EncodeEntry l.Logger.core.enc (l.Logger.entry lvl msg now site))]
        else []) := by
  refine ⟨_, Log_eq s logger l lvl msg now site hl, rfl, rfl, ?_⟩
  by_cases hv : l.Logger.core.enab ≤ lvl
  · simp [ZapLogger.Log_enabled _ _ _ _ _ hv, hv]
  · simp [ZapLogger.Log_disabled _ _ _ _ _ hv, hv]

theorem lt_length_of_getElem? {α : Type} (xs : List α) (i : Nat) (a : α)
    (h : xs[i]? = some a) : i < xs.length := by
  by_contra hn
  rw [List.getElem?_eq_none (by omega)] at h
  cases h

/-- What a derivation leaves behind: the derived logger holds the zap logger
`derivedZap` describes and the receiver's `Config` pointer; the `Config`
objects and the sinks are untouched. -/
theorem derive_spec (s : Store) (logger : Ptr) (l : CommonLogger) (cfg : Config)
    (d : Derivation) (hl : s.loggers[logger]? = some l)
    (hc : s.configs[l.config]? = some cfg) :
    ∃ s1 p, derive s logger d = some (s1, p) ∧
      s1.loggers[p]? = some { Logger := derivedZap l.Logger cfg d, config := l.config } ∧
      s1.configs = s.configs ∧ s1.sinks = s.sinks :=
  ⟨_, _, derive_eq s logger l cfg d hl hc, getElem?_last _ _, rfl, rfl⟩

theorem written_append (s : Store) (w : Writer) (extra : List (Writer × Record))
    (sinks : List (Writer × Record)) (h : sinks = s.sinks ++ extra)
    (hw : ∀ x ∈ extra, x.1 ≠ w) :
    (sinks.filter (fun x => x.1 = w)).map Prod.snd = s.written w := by
  subst h
  have : extra.filter (fun x => decide (x.1 = w)) = [] := by
    rw [List.filter_eq_nil_iff]
    intro x hx
    simpa using hw x hx
  simp [Store.written, List.filter_append, this]

/-- The zap logger of a derived logger, read back from the store. -/
theorem derive_zapOf (s : Store) (logger : Ptr) (l : CommonLogger) (cfg : Config)
    (d : Derivation) (hl : s.loggers[logger]? = some l)
    (hc : s.configs[l.config]? = some cfg) :
    ∃ s1 p, derive s logger d = some (s1, p) ∧
      s1.zapOf p = some (derivedZap l.Logger cfg d) ∧
      s1.configOf p = some cfg ∧ s1.configs = s.configs := by
  obtain ⟨s1, p, hd, hp, hcs, -⟩ := derive_spec s logger l cfg d hl hc
  exact ⟨s1, p, hd, by simp [Store.zapOf, hp], by simp [Store.configOf, hp, hcs, hc], hcs⟩

/-- The method `Name` succeeds on every allocated receiver: it allocates one object
holding the renamed zap logger and the receiver's `Config` pointer. -/
theorem Name_eq (s : Store) (logger : Ptr) (l : CommonLogger) (n : String)
    (hl : s.loggers[logger]? = some l) :
    CommonLogger.Name s logger n =
      some ({ s with loggers := s.loggers ++
                [{ Logger := l.Logger.Named n, config := l.config }] },
            s.loggers.length) := by
  simp [CommonLogger.Name, CommonLogger.clone, Store.allocLogger, Store.zapOf, Store.setLogger, hl, set_last, bind]

/-! ## The severity resolver -/

/-- C1: `GetLogLevel` maps "debug", "info", "warn" and "error" to the debug, info,
warn and error levels; the four results are pairwise distinct and strictly
increasing in that order. -/
theorem GetLogLevel_known :
    GetLogLevel "debug" = DebugLevel ∧ GetLogLevel "info" = InfoLevel ∧
    GetLogLevel "warn" = WarnLevel ∧ GetLogLevel "error" = ErrorLevel ∧
    [GetLogLevel "debug", GetLogLevel "info", GetLogLevel "warn",
      GetLogLevel "error"].Nodup ∧
    GetLogLevel "debug" < GetLogLevel "info" ∧ GetLogLevel "info" < GetLogLevel "warn" ∧
    GetLogLevel "warn" < GetLogLevel "error" := by
  decide

/-- C2: every string that is not exactly one of the four level names resolves to
the info level, and `GetLogLevel` is total: every string resolves to one of the
four levels. -/
theorem GetLogLevel_fallback (s : String)
    (h : s ∉ ["info", "debug", "warn", "error"]) :
    GetLogLevel s = InfoLevel ∧
    ∀ t : String, GetLogLevel t ∈ [DebugLevel, InfoLevel, WarnLevel, ErrorLevel] := by
  refine ⟨GetLogLevel_of_unknown s h, fun t => ?_⟩
  by_cases h1 : t = "info"
  · subst h1; decide
  by_cases h2 : t = "debug"
  · subst h2; decide
  by_cases h3 : t = "warn"
  · subst h3; decide
  by_cases h4 : t = "error"
  · subst h4; decide
  have : GetLogLevel t = InfoLevel := GetLogLevel_of_unknown t (by simp [h1, h2, h3, h4])
  rw [this]; decide

/-- The empty string, upper-case and mixed-case spellings and unrelated text all
resolve to the info level. -/
theorem GetLogLevel_fallback_witness :
    GetLogLevel "" = InfoLevel ∧ GetLogLevel "INFO" = InfoLevel ∧
    GetLogLevel "Warn" = InfoLevel ∧ GetLogLevel "verbose" = InfoLevel :=
  ⟨(GetLogLevel_fallback "" (by decide)).1, (GetLogLevel_fallback "INFO" (by decide)).1,
   (GetLogLevel_fallback "Warn" (by decide)).1, (GetLogLevel_fallback "verbose" (by decide)).1⟩

/-! ## Construction -/

/-- C3: for a `Config` `cfg`, a log call of severity `v` through the logger that
`NewCommonLogger` returns appends exactly one record to `cfg.Writer` when `v` is at
or above `GetLogLevel cfg.LogLevel` and writes nothing otherwise; with an
unrecognised level name the threshold is the info level; and a logger built at
"warn" with the default layout that is given an info record and then a warn
record adds exactly one record to its sink, the warn one, with `level` "WARN"
and `msg` the text supplied. -/
theorem NewCommonLogger_filters (s : Store) (config : Ptr) (cfg : Config)
    (h : s.configs[config]? = some cfg) :
    ∃ s1 L, NewCommonLogger s config = some (s1, L) ∧ s1.sinks = s.sinks ∧
      (∀ (v : Level) (msg : String) (now : Time) (site : Caller),
        ∃ s2, Log s1 L v msg now site = some s2 ∧
          s2.sinks = s1.sinks ++
            (if GetLogLevel cfg.LogLevel ≤ v then
              [(cfg.Writer, EncodeEntry cfg.EncodeConfig
                { Level := v, Time := now, LoggerName := "", Message := msg,
                  Caller := none })]
            else []) ∧
          (cfg.LogLevel ∉ ["info", "debug", "warn", "error"] →
            (s2.sinks ≠ s1.sinks ↔ InfoLevel ≤ v))) ∧
      (cfg.LogLevel = "warn" → cfg.EncodeConfig = defaultEncodeConfig →
        ∀ (m1 m2 : String) (t1 t2 : Time) (c1 c2 : Caller),
          ∃ s2 s3, Log s1 L InfoLevel m1 t1 c1 = some s2 ∧
            Log s2 L WarnLevel m2 t2 c2 = some s3 ∧
            s3.sinks = s.sinks ++
              [(cfg.Writer, [("level", "WARN"), ("time", timeEncoder t2), ("msg", m2)])]) := by
  refine ⟨_, _, NewCommonLogger_eq s config cfg h, rfl, ?_, ?_⟩
  · intro v msg now site
    refine ⟨_, Log_eq _ _ _ v msg now site (getElem?_last _ _), ?_, ?_⟩
    · by_cases hv : GetLogLevel cfg.LogLevel ≤ v
      · simp [ZapLogger.Log, ZapLogger.entry, Core.Enabled, New, NewCore, hv]
      · simp [ZapLogger.Log, ZapLogger.entry, Core.Enabled, New, NewCore, hv]
    · intro hu
      rw [GetLogLevel_of_unknown _ hu]
      by_cases hv : InfoLevel ≤ v
      · simp [ZapLogger.Log, ZapLogger.entry, Core.Enabled, New, NewCore, hv]
      · simp [ZapLogger.Log, ZapLogger.entry, Core.Enabled, New, NewCore, hv]
  · intro hw he m1 m2 t1 t2 c1 c2
    refine ⟨_, _, Log_eq _ _ _ InfoLevel m1 t1 c1 (getElem?_last _ _),
      Log_eq _ _ _ WarnLevel m2 t2 c2 (getElem?_last _ _), ?_⟩
    have h1 : GetLogLevel "warn" = WarnLevel := by decide
    simp [ZapLogger.Log, ZapLogger.entry, Core.Enabled, New, NewCore, hw, he, h1, EncodeEntry,
      defaultEncodeConfig, CapitalLevelEncoder, WarnLevel, InfoLevel]

/-- A logger built at "warn" on a store whose only sink, 7, is empty: an info
record and then a warn record leave exactly one record in the sink. -/
theorem NewCommonLogger_filters_witness :
    ∃ s1 L s2 s3,
      NewCommonLogger
        { configs := [{ LogLevel := "warn", Writer := 7, EncodeConfig := defaultEncodeConfig }],
          loggers := [], sinks := [] } 0 = some (s1, L) ∧
      Log s1 L InfoLevel "skipped" ⟨2024, 1, 2, 3, 4, 5⟩ ⟨"main.go:10", "main.main"⟩ = some s2 ∧
      Log s2 L WarnLevel "kept" ⟨2024, 1, 2, 3, 4, 6⟩ ⟨"main.go:11", "main.main"⟩ = some s3 ∧
      s3.written 7 =
        [[("level", "WARN"), ("time", "2024-01-02 03:04:06"), ("msg", "kept")]] := by
  obtain ⟨s1, L, hn, -, -, hscen⟩ :=
    NewCommonLogger_filters
      { configs := [{ LogLevel := "warn", Writer := 7, EncodeConfig := defaultEncodeConfig }],
        loggers := [], sinks := [] } 0
      { LogLevel := "warn", Writer := 7, EncodeConfig := defaultEncodeConfig } rfl
  obtain ⟨s2, s3, h2, h3, hs⟩ :=
    hscen rfl rfl "skipped" "kept" ⟨2024, 1, 2, 3, 4, 5⟩ ⟨2024, 1, 2, 3, 4, 6⟩
      ⟨"main.go:10", "main.main"⟩ ⟨"main.go:11", "main.main"⟩
  refine ⟨s1, L, s2, s3, hn, h2, h3, ?_⟩
  have ht : timeEncoder ⟨2024, 1, 2, 3, 4, 6⟩ = "2024-01-02 03:04:06" := by decide
  simp [Store.written, hs, ht]

/-! ## Derivation -/

/-- C4: every derivation operation (`LogLevel`, `EncodeConfig`, `Writer`, `Options`,
`Name`) returns a new object and leaves its receiver as it was: the receiver
object, its zap logger (level, writer and encoding of its core), the `Config`
it points to, every other logger, every `Config` and the sinks are unchanged,
so a log call through the receiver does after the call what it did before. -/
theorem derive_frame (s : Store) (logger : Ptr) (l : CommonLogger) (cfg : Config)
    (d : Derivation) (hl : s.loggers[logger]? = some l)
    (hc : s.configs[l.config]? = some cfg) :
    ∃ s1 newLogger, derive s logger d = some (s1, newLogger) ∧ newLogger ≠ logger ∧
      s1.loggers[logger]? = some l ∧
      s1.zapOf logger = s.zapOf logger ∧
      s1.configOf logger = some cfg ∧ s.configOf logger = some cfg ∧
      s1.configs = s.configs ∧ s1.sinks = s.sinks ∧
      (∀ (p : Ptr) (l0 : CommonLogger),
        s.loggers[p]? = some l0 → s1.loggers[p]? = some l0) ∧
      ∀ (v : Level) (msg : String) (now : Time) (site : Caller),
        (Log s1 logger v msg now site).map Store.sinks =
          (Log s logger v msg now site).map Store.sinks := by
  have hlt := lt_length_of_getElem? _ _ _ hl
  have hold : ∀ (x : CommonLogger) (p : Ptr) (l0 : CommonLogger), s.loggers[p]? = some l0 →
      (s.loggers ++ [x])[p]? = some l0 := fun x p l0 h => getElem?_old _ x l0 p h
  refine ⟨_, _, derive_eq s logger l cfg d hl hc, Nat.ne_of_gt hlt, hold _ _ _ hl, ?_, ?_, ?_, rfl, rfl,
    hold _, ?_⟩
  · simp [Store.zapOf, hold _ _ _ hl, hl]
  · simp [Store.configOf, hold _ _ _ hl, hc]
  · simp [Store.configOf, hl, hc]
  · intro v msg now site
    rw [Log_eq _ _ l v msg now site (hold _ _ _ hl), Log_eq _ _ l v msg now site hl]
    rfl

/-- On a store with one logger built at "info", `LogLevel "debug"` returns a new
logger and the first one still drops debug records. -/
theorem derive_frame_witness :
    ∃ s1 newLogger,
      derive
        { configs := [DefaultLoggerConfig],
          loggers := [{ Logger := New (NewCore defaultEncodeConfig Stdout InfoLevel),
                        config := 0 }],
          sinks := [] } 0 (.logLevel "debug") = some (s1, newLogger) ∧
      newLogger ≠ 0 ∧
      (Log s1 0 DebugLevel "m" ⟨2024, 1, 2, 3, 4, 5⟩ ⟨"main.go:10", "main.main"⟩).map
        Store.sinks = some [] := by
  obtain ⟨s1, p, h1, h2, -, -, -, -, -, -, -, h3⟩ :=
    derive_frame
      { configs := [DefaultLoggerConfig],
        loggers := [{ Logger := New (NewCore defaultEncodeConfig Stdout InfoLevel),
                      config := 0 }],
        sinks := [] } 0
      { Logger := New (NewCore defaultEncodeConfig Stdout InfoLevel), config := 0 }
      DefaultLoggerConfig (.logLevel "debug") rfl rfl
  refine ⟨s1, p, h1, h2, ?_⟩
  rw [h3]
  decide

/-- C5: the overridden member takes effect in the derived logger.  A log call of
severity `v` through `LogLevel n` writes a record exactly when `v` is at or above
`GetLogLevel n`; a log call through `Writer w` writes its record to `w` and leaves
every other sink as it was; a log call through `EncodeConfig e` writes the entry
encoded with `e`. -/
theorem derived_override (s : Store) (logger : Ptr) (l : CommonLogger) (cfg : Config)
    (n : String) (w : Writer) (e : EncoderConfig)
    (hl : s.loggers[logger]? = some l) (hc : s.configs[l.config]? = some cfg) :
    (∃ s1 p, CommonLogger.LogLevel s logger n = some (s1, p) ∧
      ∀ (v : Level) (msg : String) (now : Time) (site : Caller),
        ∃ s2, Log s1 p v msg now site = some s2 ∧
          s2.sinks = s1.sinks ++
            (if GetLogLevel n ≤ v then
              [(cfg.Writer, EncodeEntry cfg.EncodeConfig (l.Logger.entry v msg now site))]
            else []) ∧
          (s2.sinks ≠ s1.sinks ↔ GetLogLevel n ≤ v)) ∧
    (∃ s1 p, CommonLogger.Writer s logger w = some (s1, p) ∧
      ∀ (v : Level) (msg : String) (now : Time) (site : Caller),
        ∃ s2, Log s1 p v msg now site = some s2 ∧
          s2.sinks = s1.sinks ++
            (if GetLogLevel cfg.LogLevel ≤ v then
              [(w, EncodeEntry cfg.EncodeConfig (l.Logger.entry v msg now site))]
            else []) ∧
          ∀ w0 : Writer, w0 ≠ w → s2.written w0 = s1.written w0) ∧
    (∃ s1 p, CommonLogger.EncodeConfig s logger e = some (s1, p) ∧
      ∀ (v : Level) (msg : String) (now : Time) (site : Caller),
        ∃ s2, Log s1 p v msg now site = some s2 ∧
          s2.sinks = s1.sinks ++
            (if GetLogLevel cfg.LogLevel ≤ v then
              [(cfg.Writer, EncodeEntry e (l.Logger.entry v msg now site))]
            else [])) := by
  refine ⟨?_, ?_, ?_⟩
  · obtain ⟨s1, p, hd, hp, -, -⟩ := derive_spec s logger l cfg (.logLevel n) hl hc
    refine ⟨s1, p, hd, fun v msg now site => ?_⟩
    obtain ⟨s2, h2, -, -, hs⟩ := Log_sinks s1 p _ v msg now site hp
    refine ⟨s2, h2, hs, ?_⟩
    rw [hs]
    by_cases hv : GetLogLevel n ≤ v <;> simp [derivedZap, NewCore, hv]
  · obtain ⟨s1, p, hd, hp, -, -⟩ := derive_spec s logger l cfg (.writer w) hl hc
    refine ⟨s1, p, hd, fun v msg now site => ?_⟩
    obtain ⟨s2, h2, -, -, hs⟩ := Log_sinks s1 p _ v msg now site hp
    refine ⟨s2, h2, hs, fun w0 hw0 => ?_⟩
    refine written_append s1 w0 _ s2.sinks hs ?_
    intro x hx
    by_cases hv : GetLogLevel cfg.LogLevel ≤ v
    · simp [derivedZap, NewCore, hv] at hx
      rw [hx]
      exact fun h => hw0 h.symm
    · simp [derivedZap, NewCore, hv] at hx
  · obtain ⟨s1, p, hd, hp, -, -⟩ := derive_spec s logger l cfg (.encodeConfig e) hl hc
    refine ⟨s1, p, hd, fun v msg now site => ?_⟩
    obtain ⟨s2, h2, -, -, hs⟩ := Log_sinks s1 p _ v msg now site hp
    exact ⟨s2, h2, hs⟩

/-- A logger built at "info" that writes to sink 1: its `LogLevel "debug"` derivation
writes a debug record. -/
theorem derived_override_witness :
    ∃ s1 p, CommonLogger.LogLevel
        { configs := [DefaultLoggerConfig],
          loggers := [{ Logger := New (NewCore defaultEncodeConfig Stdout InfoLevel),
                        config := 0 }],
          sinks := [] } 0 "debug" = some (s1, p) ∧
      ∃ s2, Log s1 p DebugLevel "m" ⟨2024, 1, 2, 3, 4, 5⟩ ⟨"main.go:10", "main.main"⟩ =
          some s2 ∧
        s2.sinks ≠ s1.sinks := by
  obtain ⟨⟨s1, p, h1, h2⟩, -, -⟩ :=
    derived_override
      { configs := [DefaultLoggerConfig],
        loggers := [{ Logger := New (NewCore defaultEncodeConfig Stdout InfoLevel),
                      config := 0 }],
        sinks := [] } 0
      { Logger := New (NewCore defaultEncodeConfig Stdout InfoLevel), config := 0 }
      DefaultLoggerConfig "debug" 2 defaultEncodeConfig rfl rfl
  obtain ⟨s2, h3, -, h4⟩ :=
    h2 DebugLevel "m" ⟨2024, 1, 2, 3, 4, 5⟩ ⟨"main.go:10", "main.main"⟩
  exact ⟨s1, p, h1, s2, h3, h4.mpr (by decide)⟩

/-- C6, as stated, fails: on the logger `L1` obtained by `Writer 2` from a logger
built on the default `Config` (sink 1), `L1` writes to sink 2 but
`L1.LogLevel "warn"` writes to sink 1, the writer of the `Config`. -/
theorem LogLevel_after_Writer_counterexample :
    ∃ s1 L0 s2 L1 s3 L2 z1 z2 s4 s5,
      NewCommonLogger exampleStore 0 = some (s1, L0) ∧
      CommonLogger.Writer s1 L0 2 = some (s2, L1) ∧
      CommonLogger.LogLevel s2 L1 "warn" = some (s3, L2) ∧
      s3.zapOf L1 = some z1 ∧ s3.zapOf L2 = some z2 ∧
      z1.core.out = 2 ∧ z2.core.out = 1 ∧
      Log s3 L1 WarnLevel "m" ⟨2024, 1, 2, 3, 4, 5⟩ ⟨"main.go:10", "main.main"⟩ = some s4 ∧
      Log s4 L2 WarnLevel "m" ⟨2024, 1, 2, 3, 4, 5⟩ ⟨"main.go:10", "main.main"⟩ = some s5 ∧
      s5.sinks.map Prod.fst = [2, 1] :=
  ⟨_, _, _, _, _, _, _, _, _, _, rfl, rfl, rfl, rfl, rfl, rfl, rfl, rfl, rfl, rfl⟩

/-- C6, amended: a derivation takes the members it does not override from the
`Config` the receiver points to.  For every logger, `LogLevel n` builds its core
with the writer and layout of that `Config`, `Writer w` with its level and
layout, `EncodeConfig e` with its level and writer; for a logger built directly
by `NewCommonLogger` these are the writer, level and layout the logger itself
uses. -/
theorem derivation_keeps_config_members (s : Store) (logger : Ptr) (l : CommonLogger)
    (cfg : Config) (n : String) (w : Writer) (e : EncoderConfig)
    (hl : s.loggers[logger]? = some l) (hc : s.configs[l.config]? = some cfg) :
    (∃ s1 p z, CommonLogger.LogLevel s logger n = some (s1, p) ∧ s1.zapOf p = some z ∧
      z.core.out = cfg.Writer ∧ z.core.enc = cfg.EncodeConfig) ∧
    (∃ s1 p z, CommonLogger.Writer s logger w = some (s1, p) ∧ s1.zapOf p = some z ∧
      z.core.enab = GetLogLevel cfg.LogLevel ∧ z.core.enc = cfg.EncodeConfig) ∧
    (∃ s1 p z, CommonLogger.EncodeConfig s logger e = some (s1, p) ∧ s1.zapOf p = some z ∧
      z.core.enab = GetLogLevel cfg.LogLevel ∧ z.core.out = cfg.Writer) ∧
    (∀ (s0 : Store) (c0 : Ptr) (cfg0 : Config), s0.configs[c0]? = some cfg0 →
      ∃ s1 L1 z1, NewCommonLogger s0 c0 = some (s1, L1) ∧ s1.zapOf L1 = some z1 ∧
        (∃ s2 p z, CommonLogger.LogLevel s1 L1 n = some (s2, p) ∧ s2.zapOf p = some z ∧
          z.core.out = z1.core.out ∧ z.core.enc = z1.core.enc) ∧
        (∃ s2 p z, CommonLogger.Writer s1 L1 w = some (s2, p) ∧ s2.zapOf p = some z ∧
          z.core.enab = z1.core.enab ∧ z.core.enc = z1.core.enc) ∧
        (∃ s2 p z, CommonLogger.EncodeConfig s1 L1 e = some (s2, p) ∧ s2.zapOf p = some z ∧
          z.core.enab = z1.core.enab ∧ z.core.out = z1.core.out)) := by
  have key : ∀ (s : Store) (logger : Ptr) (l : CommonLogger) (cfg : Config) (d : Derivation),
      s.loggers[logger]? = some l → s.configs[l.config]? = some cfg →
      ∃ s1 p, derive s logger d = some (s1, p) ∧
        s1.zapOf p = some (derivedZap l.Logger cfg d) := by
    intro s logger l cfg d hl hc
    obtain ⟨s1, p, hd, hp, -, -⟩ := derive_spec s logger l cfg d hl hc
    exact ⟨s1, p, hd, by simp [Store.zapOf, hp]⟩
  refine ⟨?_, ?_, ?_, ?_⟩
  · obtain ⟨s1, p, hd, hz⟩ := key s logger l cfg (.logLevel n) hl hc
    exact ⟨s1, p, _, hd, hz, rfl, rfl⟩
  · obtain ⟨s1, p, hd, hz⟩ := key s logger l cfg (.writer w) hl hc
    exact ⟨s1, p, _, hd, hz, rfl, rfl⟩
  · obtain ⟨s1, p, hd, hz⟩ := key s logger l cfg (.encodeConfig e) hl hc
    exact ⟨s1, p, _, hd, hz, rfl, rfl⟩
  · intro s0 c0 cfg0 h0
    obtain ⟨s1, L1, hn, hL, hcs, -⟩ := NewCommonLogger_spec s0 c0 cfg0 h0
    have hc1 : s1.configs[c0]? = some cfg0 := by rw [hcs]; exact h0
    refine ⟨s1, L1, New (NewCore cfg0.EncodeConfig cfg0.Writer (GetLogLevel cfg0.LogLevel)),
      hn, by simp only [Store.zapOf, hL, Option.map_some'], ?_, ?_, ?_⟩
    · obtain ⟨s2, p, hd, hz⟩ := key s1 L1 _ cfg0 (.logLevel n) hL hc1
      exact ⟨s2, p, _, hd, hz, rfl, rfl⟩
    · obtain ⟨s2, p, hd, hz⟩ := key s1 L1 _ cfg0 (.writer w) hL hc1
      exact ⟨s2, p, _, hd, hz, rfl, rfl⟩
    · obtain ⟨s2, p, hd, hz⟩ := key s1 L1 _ cfg0 (.encodeConfig e) hL hc1
      exact ⟨s2, p, _, hd, hz, rfl, rfl⟩

/-- On a logger built on the default `Config`, `LogLevel "warn"` keeps the sink
and the layout of the `Config`. -/
theorem derivation_keeps_config_members_witness :
    ∃ s1 p z,
      CommonLogger.LogLevel
        { configs := [DefaultLoggerConfig],
          loggers := [{ Logger := New (NewCore defaultEncodeConfig Stdout InfoLevel),
                        config := 0 }],
          sinks := [] } 0 "warn" = some (s1, p) ∧
      s1.zapOf p = some z ∧ z.core.out = Stdout ∧ z.core.enc = defaultEncodeConfig :=
  (derivation_keeps_config_members
    { configs := [DefaultLoggerConfig],
      loggers := [{ Logger := New (NewCore defaultEncodeConfig Stdout InfoLevel),
                    config := 0 }],
      sinks := [] } 0
    { Logger := New (NewCore defaultEncodeConfig Stdout InfoLevel), config := 0 }
    DefaultLoggerConfig "warn" 2 defaultEncodeConfig rfl rfl).1

/-- C7, as stated, fails: the logger derived by `LogLevel "debug"` from a logger
built on the default `Config` still holds a `Config` whose `LogLevel` is "info". -/
theorem LogLevel_config_counterexample :
    ∃ s1 L0 s2 L1 c,
      NewCommonLogger exampleStore 0 = some (s1, L0) ∧
      CommonLogger.LogLevel s1 L0 "debug" = some (s2, L1) ∧
      s2.configOf L1 = some c ∧ c.LogLevel = "info" ∧ c.LogLevel ≠ "debug" :=
  ⟨_, _, _, _, _, rfl, rfl, rfl, rfl, by decide⟩

/-- C7, amended: the `Config` a derived logger holds is the receiver's, with all
three members as they were; the override is recorded in the emitter core of the
derived logger only: its level is `GetLogLevel n` after `LogLevel n`, its writer is
`w` after `Writer w`, its layout is `e` after `EncodeConfig e`. -/
theorem derived_config_is_receivers (s : Store) (logger : Ptr) (l : CommonLogger)
    (cfg : Config) (n : String) (w : Writer) (e : EncoderConfig)
    (hl : s.loggers[logger]? = some l) (hc : s.configs[l.config]? = some cfg) :
    (∃ s1 p z, CommonLogger.LogLevel s logger n = some (s1, p) ∧ s1.configOf p = some cfg ∧
      s1.zapOf p = some z ∧ z.core.enab = GetLogLevel n) ∧
    (∃ s1 p z, CommonLogger.Writer s logger w = some (s1, p) ∧ s1.configOf p = some cfg ∧
      s1.zapOf p = some z ∧ z.core.out = w) ∧
    (∃ s1 p z, CommonLogger.EncodeConfig s logger e = some (s1, p) ∧ s1.configOf p = some cfg ∧
      s1.zapOf p = some z ∧ z.core.enc = e) := by
  refine ⟨?_, ?_, ?_⟩
  · obtain ⟨s1, p, hd, hz, hcfg, -⟩ := derive_zapOf s logger l cfg (.logLevel n) hl hc
    exact ⟨s1, p, _, hd, hcfg, hz, rfl⟩
  · obtain ⟨s1, p, hd, hz, hcfg, -⟩ := derive_zapOf s logger l cfg (.writer w) hl hc
    exact ⟨s1, p, _, hd, hcfg, hz, rfl⟩
  · obtain ⟨s1, p, hd, hz, hcfg, -⟩ := derive_zapOf s logger l cfg (.encodeConfig e) hl hc
    exact ⟨s1, p, _, hd, hcfg, hz, rfl⟩

/-- On a logger built on the default `Config`, the logger derived by `Writer 2`
holds the default `Config` and writes to sink 2. -/
theorem derived_config_is_receivers_witness :
    ∃ s1 p z,
      CommonLogger.Writer
        { configs := [DefaultLoggerConfig],
          loggers := [{ Logger := New (NewCore defaultEncodeConfig Stdout InfoLevel),
                        config := 0 }],
          sinks := [] } 0 2 = some (s1, p) ∧
      s1.configOf p = some DefaultLoggerConfig ∧ s1.zapOf p = some z ∧ z.core.out = 2 :=
  (derived_config_is_receivers
    { configs := [DefaultLoggerConfig],
      loggers := [{ Logger := New (NewCore defaultEncodeConfig Stdout InfoLevel),
                    config := 0 }],
      sinks := [] } 0
    { Logger := New (NewCore defaultEncodeConfig Stdout InfoLevel), config := 0 }
    DefaultLoggerConfig "debug" 2 defaultEncodeConfig rfl rfl).2.1

/-- C8, as stated, fails: the logger built by `NewCommonLogger` on the `Config` at
pointer 0 and the logger derived from it by `LogLevel "debug"` are two objects
that both reference the `Config` at pointer 0, the one the caller handed in. -/
theorem shared_config_counterexample :
    ∃ s1 L0 s2 L1 l0 l1,
      NewCommonLogger exampleStore 0 = some (s1, L0) ∧
      CommonLogger.LogLevel s1 L0 "debug" = some (s2, L1) ∧ L0 ≠ L1 ∧
      s2.loggers[L0]? = some l0 ∧ s2.loggers[L1]? = some l1 ∧
      l0.config = 0 ∧ l1.config = 0 ∧ s2.configs.length = 1 :=
  ⟨_, _, _, _, _, _, rfl, rfl, by decide, rfl, rfl, rfl, rfl, rfl⟩

/-- C8, amended: a logger references the `Config` object it was given, not a copy.
`NewCommonLogger c` stores the pointer `c` itself and every derivation gives the
derived logger the pointer of its receiver; no `Config` object is allocated or
written by construction, by a derivation or by a log call. -/
theorem config_pointer_shared (s : Store) (logger : Ptr) (l : CommonLogger) (cfg : Config)
    (d : Derivation) (hl : s.loggers[logger]? = some l)
    (hc : s.configs[l.config]? = some cfg) :
    (∃ s1 p l1, derive s logger d = some (s1, p) ∧ s1.loggers[p]? = some l1 ∧
      l1.config = l.config ∧ s1.configs = s.configs) ∧
    (∀ (c : Ptr) (cfg0 : Config), s.configs[c]? = some cfg0 →
      ∃ s1 p l1, NewCommonLogger s c = some (s1, p) ∧ s1.loggers[p]? = some l1 ∧
        l1.config = c ∧ s1.configs = s.configs) ∧
    (∀ (v : Level) (msg : String) (now : Time) (site : Caller),
      ∃ s2, Log s logger v msg now site = some s2 ∧ s2.configs = s.configs) := by
  refine ⟨?_, ?_, ?_⟩
  · obtain ⟨s1, p, hd, hp, hcs, -⟩ := derive_spec s logger l cfg d hl hc
    exact ⟨s1, p, _, hd, hp, rfl, hcs⟩
  · intro c cfg0 h0
    obtain ⟨s1, p, hn, hp, hcs, -⟩ := NewCommonLogger_spec s c cfg0 h0
    exact ⟨s1, p, _, hn, hp, rfl, hcs⟩
  · intro v msg now site
    obtain ⟨s2, h2, hcs, -, -⟩ := Log_sinks s logger l v msg now site hl
    exact ⟨s2, h2, hcs⟩

/-- On a store with one logger on the `Config` at pointer 0, the logger derived
by `Name "svc"` references pointer 0 as well. -/
theorem config_pointer_shared_witness :
    ∃ s1 p l1,
      derive
        { configs := [DefaultLoggerConfig],
          loggers := [{ Logger := New (NewCore defaultEncodeConfig Stdout InfoLevel),
                        config := 0 }],
          sinks := [] } 0 (.name "svc") = some (s1, p) ∧
      s1.loggers[p]? = some l1 ∧ l1.config = 0 ∧ s1.configs = [DefaultLoggerConfig] :=
  (config_pointer_shared
    { configs := [DefaultLoggerConfig],
      loggers := [{ Logger := New (NewCore defaultEncodeConfig Stdout InfoLevel),
                    config := 0 }],
      sinks := [] } 0
    { Logger := New (NewCore defaultEncodeConfig Stdout InfoLevel), config := 0 }
    DefaultLoggerConfig (.name "svc") rfl rfl).1

/-- C9, as stated, fails on a receiver that already has a name, on the empty
name and on a layout without a name key: after `Name "a"`, the logger derived by
`Name "svc"` tags its records "a.svc"; the logger derived by `Name ""` from an
unnamed logger writes records without a `name` member; and so does the logger
derived by `Name "svc"` from a logger whose layout has the empty name key. -/
theorem Name_counterexample :
    (∃ s1 L0 s2 L1 s3 L2 s4,
      NewCommonLogger exampleStore 0 = some (s1, L0) ∧
      CommonLogger.Name s1 L0 "a" = some (s2, L1) ∧
      CommonLogger.Name s2 L1 "svc" = some (s3, L2) ∧
      Log s3 L2 InfoLevel "m" ⟨2024, 1, 2, 3, 4, 5⟩ ⟨"main.go:10", "main.main"⟩ = some s4 ∧
      s4.sinks =
        [(Stdout, [("level", "INFO"), ("time", "2024-01-02 03:04:05"), ("name", "a.svc"),
                   ("msg", "m")])]) ∧
    (∃ s1 L0 s2 L1 s3,
      NewCommonLogger exampleStore 0 = some (s1, L0) ∧
      CommonLogger.Name s1 L0 "" = some (s2, L1) ∧
      Log s2 L1 InfoLevel "m" ⟨2024, 1, 2, 3, 4, 5⟩ ⟨"main.go:10", "main.main"⟩ = some s3 ∧
      s3.sinks =
        [(Stdout, [("level", "INFO"), ("time", "2024-01-02 03:04:05"), ("msg", "m")])]) ∧
    (∃ s1 L0 s2 L1 s3,
      NewCommonLogger
        { configs := [{ LogLevel := "info", Writer := Stdout,
                        EncodeConfig := { defaultEncodeConfig with NameKey := "" } }],
          loggers := [], sinks := [] } 0 = some (s1, L0) ∧
      CommonLogger.Name s1 L0 "svc" = some (s2, L1) ∧
      Log s2 L1 InfoLevel "m" ⟨2024, 1, 2, 3, 4, 5⟩ ⟨"main.go:10", "main.main"⟩ = some s3 ∧
      s3.sinks =
        [(Stdout, [("level", "INFO"), ("time", "2024-01-02 03:04:05"), ("msg", "m")])]) :=
  ⟨⟨_, _, _, _, _, _, _, rfl, rfl, rfl, rfl, by decide⟩,
   ⟨_, _, _, _, _, rfl, rfl, rfl, by decide⟩,
   ⟨_, _, _, _, _, rfl, rfl, rfl, by decide⟩⟩

/-- C9, amended: `Name n` returns a new logger with the receiver's `Config` pointer
and the receiver's emitter core (level, writer, layout; no rebuild) and leaves
the receiver and its records as they were.  The name of the new logger is `n`
when the receiver is unnamed and `n` is not empty, the receiver's name followed
by a period and `n` when the receiver is named and `n` is not empty, and the
receiver's name when `n` is empty.  A record the new logger writes carries the
name member `n` when the receiver is unnamed, `n` is not empty and the layout
has a name key. -/
theorem Name_spec (s : Store) (logger : Ptr) (l : CommonLogger) (n : String)
    (hl : s.loggers[logger]? = some l) :
    ∃ s1 p z, CommonLogger.Name s logger n = some (s1, p) ∧
      s1.loggers[p]? = some { Logger := z, config := l.config } ∧
      s1.loggers[logger]? = some l ∧ s1.configs = s.configs ∧ s1.sinks = s.sinks ∧
      z.core = l.Logger.core ∧ z.addCaller = l.Logger.addCaller ∧
      (n ≠ "" → l.Logger.name = "" → z.name = n) ∧
      (n ≠ "" → l.Logger.name ≠ "" → z.name = l.Logger.name ++ "." ++ n) ∧
      (n = "" → z.name = l.Logger.name) ∧
      (∀ (v : Level) (msg : String) (now : Time) (site : Caller),
        (Log s1 logger v msg now site).map Store.sinks =
          (Log s logger v msg now site).map Store.sinks) ∧
      (n ≠ "" → l.Logger.name = "" → l.Logger.core.enc.NameKey ≠ "" →
        ∀ (v : Level) (msg : String) (now : Time) (site : Caller),
          l.Logger.core.enab ≤ v →
          ∃ s2 r, Log s1 p v msg now site = some s2 ∧
            s2.sinks = s1.sinks ++ [(l.Logger.core.out, r)] ∧
            (l.Logger.core.enc.NameKey, n) ∈ r) := by
  have hold := getElem?_old s.loggers { Logger := l.Logger.Named n, config := l.config } l
    logger hl
  have hcore : (l.Logger.Named n).core = l.Logger.core := by
    unfold ZapLogger.Named; split_ifs <;> rfl
  have hcaller : (l.Logger.Named n).addCaller = l.Logger.addCaller := by
    unfold ZapLogger.Named; split_ifs <;> rfl
  refine ⟨_, _, l.Logger.Named n, Name_eq s logger l n hl, getElem?_last _ _, hold, rfl, rfl,
    hcore, hcaller, ?_, ?_, ?_, ?_, ?_⟩
  · intro hn hu
    simp [ZapLogger.Named, hn, hu]
  · intro hn hu
    simp [ZapLogger.Named, hn, hu]
  · intro hn
    simp [ZapLogger.Named, hn]
  · intro v msg now site
    rw [Log_eq _ _ l v msg now site hold, Log_eq _ _ l v msg now site hl]
    rfl
  · intro hn hu hk v msg now site hv
    have hname : (l.Logger.Named n).name = n := by simp [ZapLogger.Named, hn, hu]
    obtain ⟨s2, h2, -, -, hs⟩ :=
      Log_sinks
        { s with loggers := s.loggers ++ [{ Logger := l.Logger.Named n, config := l.config }] }
        s.loggers.length { Logger := l.Logger.Named n, config := l.config } v msg now site
        (getElem?_last s.loggers { Logger := l.Logger.Named n, config := l.config })
    refine ⟨s2, EncodeEntry l.Logger.core.enc ((l.Logger.Named n).entry v msg now site),
      h2, ?_, ?_⟩
    · rw [hs]
      simp only [hcore, if_pos hv]
    · simp [EncodeEntry, ZapLogger.entry, hname, hn, hk]

/-- On a fresh logger with the default layout, `Name "svc"` makes an info record
carry the member `name` = "svc". -/
theorem Name_spec_witness :
    ∃ s1 p, CommonLogger.Name
        { configs := [DefaultLoggerConfig],
          loggers := [{ Logger := New (NewCore defaultEncodeConfig Stdout InfoLevel),
                        config := 0 }],
          sinks := [] } 0 "svc" = some (s1, p) ∧
      ∃ s2 r, Log s1 p InfoLevel "m" ⟨2024, 1, 2, 3, 4, 5⟩ ⟨"main.go:10", "main.main"⟩ =
          some s2 ∧
        s2.sinks = s1.sinks ++ [(Stdout, r)] ∧ ("name", "svc") ∈ r := by
  obtain ⟨s1, p, z, h1, -, -, -, -, -, -, -, -, -, -, h2⟩ :=
    Name_spec
      { configs := [DefaultLoggerConfig],
        loggers := [{ Logger := New (NewCore defaultEncodeConfig Stdout InfoLevel),
                      config := 0 }],
        sinks := [] } 0
      { Logger := New (NewCore defaultEncodeConfig Stdout InfoLevel), config := 0 } "svc" rfl
  exact ⟨s1, p, h1,
    h2 (by decide) rfl (by decide) InfoLevel "m" ⟨2024, 1, 2, 3, 4, 5⟩
      ⟨"main.go:10", "main.main"⟩ (by decide)⟩

/-- C10: core-rebuilding derivations do not accumulate.  Every derived logger
points to the `Config` of its receiver, so each rebuild reads level, writer and
layout from the `Config` the first logger was built on: for every logger `L`,
every derivation `d1` and every rebuilding derivation `d2` (`LogLevel`, `Writer`
or `EncodeConfig`), the emitter core of `d2` applied to the result of `d1` has the
level, writer and layout of the core of `d2` applied to `L`, and the core of the
result of `d2` is made of the override and the members of that `Config`. -/
theorem rebuild_ignores_earlier_derivation (s : Store) (logger : Ptr) (l : CommonLogger)
    (cfg : Config) (d1 d2 : Derivation) (hl : s.loggers[logger]? = some l)
    (hc : s.configs[l.config]? = some cfg) (h2 : d2.rebuilds = true) :
    ∃ s1 p1 s2 p2 s3 p3 z2 z3,
      derive s logger d1 = some (s1, p1) ∧ derive s1 p1 d2 = some (s2, p2) ∧
      derive s logger d2 = some (s3, p3) ∧
      s2.zapOf p2 = some z2 ∧ s3.zapOf p3 = some z3 ∧
      z2.core.enab = z3.core.enab ∧ z2.core.out = z3.core.out ∧ z2.core.enc = z3.core.enc ∧
      s1.configOf p1 = some cfg ∧ s2.configOf p2 = some cfg ∧ s3.configOf p3 = some cfg ∧
      (∀ n, d2 = .logLevel n →
        z2.core = NewCore cfg.EncodeConfig cfg.Writer (GetLogLevel n)) ∧
      (∀ w, d2 = .writer w →
        z2.core = NewCore cfg.EncodeConfig w (GetLogLevel cfg.LogLevel)) ∧
      (∀ e, d2 = .encodeConfig e →
        z2.core = NewCore e cfg.Writer (GetLogLevel cfg.LogLevel)) := by
  obtain ⟨s1, p1, hd1, hp1, hcs1, -⟩ := derive_spec s logger l cfg d1 hl hc
  have hc1 : s1.configs[l.config]? = some cfg := by rw [hcs1]; exact hc
  obtain ⟨s2, p2, hd2, hz2, hcfg2, -⟩ :=
    derive_zapOf s1 p1 { Logger := derivedZap l.Logger cfg d1, config := l.config } cfg d2
      hp1 hc1
  obtain ⟨s3, p3, hd3, hz3, hcfg3, -⟩ := derive_zapOf s logger l cfg d2 hl hc
  have hcfg1 : s1.configOf p1 = some cfg := by simp [Store.configOf, hp1, hc1]
  refine ⟨s1, p1, s2, p2, s3, p3, _, _, hd1, hd2, hd3, hz2, hz3, ?_, ?_, ?_, hcfg1, hcfg2,
    hcfg3, ?_, ?_, ?_⟩
  · cases d2 <;> first | rfl | cases h2
  · cases d2 <;> first | rfl | cases h2
  · cases d2 <;> first | rfl | cases h2
  · intro n hn; subst hn; rfl
  · intro w hw; subst hw; rfl
  · intro e he; subst he; rfl

/-- On a logger built on the default `Config` (level "info", sink 1):
`LogLevel "debug"` followed by `Writer 2` gives a core at the info level on sink
2, as `Writer 2` alone does. -/
theorem rebuild_ignores_earlier_derivation_witness :
    ∃ s1 p1 s2 p2 s3 p3 z2 z3,
      derive
        { configs := [DefaultLoggerConfig],
          loggers := [{ Logger := New (NewCore defaultEncodeConfig Stdout InfoLevel),
                        config := 0 }],
          sinks := [] } 0 (.logLevel "debug") = some (s1, p1) ∧
      derive s1 p1 (.writer 2) = some (s2, p2) ∧
      derive
        { configs := [DefaultLoggerConfig],
          loggers := [{ Logger := New (NewCore defaultEncodeConfig Stdout InfoLevel),
                        config := 0 }],
          sinks := [] } 0 (.writer 2) = some (s3, p3) ∧
      s2.zapOf p2 = some z2 ∧ s3.zapOf p3 = some z3 ∧
      z2.core.enab = z3.core.enab ∧ z2.core.out = z3.core.out ∧ z2.core.enc = z3.core.enc ∧
      z2.core = NewCore defaultEncodeConfig 2 InfoLevel := by
  obtain ⟨s1, p1, s2, p2, s3, p3, z2, z3, h1, h2, h3, h4, h5, h6, h7, h8, -, -, -, -, h9, -⟩ :=
    rebuild_ignores_earlier_derivation
      { configs := [DefaultLoggerConfig],
        loggers := [{ Logger := New (NewCore defaultEncodeConfig Stdout InfoLevel),
                      config := 0 }],
        sinks := [] } 0
      { Logger := New (NewCore defaultEncodeConfig Stdout InfoLevel), config := 0 }
      DefaultLoggerConfig (.logLevel "debug") (.writer 2) rfl rfl rfl
  exact ⟨s1, p1, s2, p2, s3, p3, z2, z3, h1, h2, h3, h4, h5, h6, h7, h8, h9 2 rfl⟩

end Loggers
